import Mathlib

/-!
Verification of the procman deputy (`src/bot2-procman/src/deputy/procman_deputy.c`)
against its natural-language specification.

The deputy's per-child bookkeeping (`procman_cmd_t` plus the deputy-private
`pmd_cmd_moreinfo_t`), deputy state (`procman_deputy_t`) and the reconciler
(`procman_deputy_order_received`, `start_cmd`, `stop_cmd`, `update_cpu_times`,
`check_for_dead_children`, `introspection_timeout`) are embedded as pure Lean
functions.  External, operating-system-level outcomes (the pid returned by a
fork, per-pid statistics reads, the wall clock) are supplied as explicit
parameters, so every function here is deterministic and executable.

Primitives of `procman.c`/`procman.h` (not part of the sources at hand) are
modelled from the specification where noted in their doc comments.
-/

namespace ProcmanDeputy

/-- Signal number of SIGTERM on Linux, as used by `stop_cmd`. -/
def SIGTERM : Nat := 15

/-- Signal number of SIGKILL on Linux, as used by `stop_cmd`. -/
def SIGKILL : Nat := 9

/-- Modelled from the spec: `PROCMAN_MAX_MESSAGE_AGE_USEC` is defined in
`procman.h`, which is not among the sources; the spec gives "a few seconds
(configurable; source uses a tens-of-seconds bound)".  We fix the bound at
60 seconds, in microseconds. -/
def PROCMAN_MAX_MESSAGE_AGE_USEC : Int := 60000000

/-- Per-process CPU/memory sample (`proc_cpu_mem_t` of `procinfo.h`):
jiffy counters are 64-bit unsigned in the source and are represented as
`Nat`, with wraparound made explicit where the source subtracts them. -/
structure ProcCpuMem where
  user : Nat
  system : Nat
  vsize : Nat
  rss : Nat
  deriving Repr, DecidableEq

/-- System-wide CPU/memory sample (`sys_cpu_mem_t` of `procinfo.h`). -/
structure SysCpuMem where
  user : Nat
  user_low : Nat
  system : Nat
  idle : Nat
  memtotal : Nat
  memfree : Nat
  swaptotal : Nat
  swapfree : Nat
  deriving Repr, DecidableEq

/-- One child record.  This flattens the C `procman_cmd_t` (fields `str`
standing for `cmd->cmd->str`, `pid`, `exit_status`) together with the
deputy-private `pmd_cmd_moreinfo_t` stored in `cmd->user` (fields
`sheriff_id`, `actual_runid`, `num_kills_sent`, `last_kill_time`,
`remove_requested`, `group`, `nickname`, the two-slot cpu sample ring and
`cpu_usage`).  The pair `stdout_ioc`/`stdout_sid` of glib watch handles is
abstracted into the boolean `stdout_watch`: true exactly when a stdout IO
watch is registered with the event loop. -/
structure ProcmanCmd where
  str : String
  pid : Nat
  exit_status : Int
  stdout_watch : Bool
  sheriff_id : Int
  actual_runid : Int
  num_kills_sent : Nat
  last_kill_time : Int
  remove_requested : Bool
  group : String
  nickname : String
  cpu_time0 : ProcCpuMem
  cpu_time1 : ProcCpuMem
  cpu_usage : ℚ
  deriving Repr, DecidableEq

/-- One per-command record of an incoming `bot_procman_orders_t` message
(`bot_procman_sheriff_cmd_t`). -/
structure SheriffCmd where
  name : String
  nickname : String
  group : String
  sheriff_id : Int
  desired_runid : Int
  force_quit : Bool
  deriving Repr, DecidableEq

/-- An incoming `bot_procman_orders_t` message. -/
structure Orders where
  utime : Int
  host : String
  sheriff_name : String
  cmds : List SheriffCmd
  deriving Repr, DecidableEq

/-- Observable side effects of the deputy, in emission order:
`spawn` records a successful fork/exec of a child (from
`procman_start_cmd`), `signal` a signal sent to a pid (from
`procman_kill_cmd`), `log` a line published on the `PMD_PRINTF` channel
tagged with a sheriff id (from `printf_and_transmit`/`transmit_str`),
`telemetry` a deputy-info snapshot published on `PMD_INFO` (from
`transmit_proc_info`). -/
inductive Effect where
  | spawn (sheriff_id : Int) (pid : Nat)
  | signal (pid : Nat) (sig : Nat)
  | log (sheriff_id : Int) (text : String)
  | telemetry
  deriving Repr, DecidableEq

/-- External inputs to one reconcile: the wall-clock time in microseconds
(`timestamp_now`) and the outcome of `fork`/`exec` for a given command,
keyed by sheriff id: `spawn_pid sid = 0` models a failed
`procman_start_cmd`, a nonzero value the pid recorded by the parent. -/
structure Env where
  now : Int
  spawn_pid : Int → Nat

/-- Deputy state (`procman_deputy_t`).  The child table owned by the
`procman_t` is inlined as the list `cmds`; the two-slot system sample ring
`cpu_time[2]` becomes the pair `cpu_time0` (previous) / `cpu_time1`
(current); `cpu_load` is the C `float` modelled as a rational. -/
structure Deputy where
  hostname : String
  norders_slm : Nat
  norders_forme_slm : Nat
  nstale_orders_slm : Nat
  observed_sheriffs_slm : List String
  last_sheriff_name : Option String
  cpu_time0 : SysCpuMem
  cpu_time1 : SysCpuMem
  cpu_load : ℚ
  cmds : List ProcmanCmd

/-- `start_cmd` (procman_deputy.c:224).  Calls `procman_start_cmd`
(modelled from the spec: "pipe; fork; ... parent records pid and
stdout_fd.  Fails with SpawnFailed on fork/exec error; on failure `pid`
stays 0" — the outcome is supplied by `env.spawn_pid`).  On failure it
publishes the two "couldn't start" lines (one with sheriff id 0, one with
the child's sheriff id) and returns -1 leaving the handle untouched; on
success it registers the stdout IO watch and sets
`actual_runid := desired_runid`, `num_kills_sent := 0`,
`last_kill_time := 0`, returning 0. -/
def start_cmd (env : Env) (p : ProcmanCmd) (desired_runid : Int) :
    ProcmanCmd × List Effect × Int :=
  let newpid := env.spawn_pid p.sheriff_id
  if newpid = 0 then
    (p,
     [Effect.log 0 ("couldn't start [" ++ p.str ++ "]\n"),
      Effect.log p.sheriff_id ("ERROR!  couldn't start [" ++ p.str ++ "]\n")],
     -1)
  else
    ({ p with pid := newpid, stdout_watch := true,
              actual_runid := desired_runid,
              num_kills_sent := 0, last_kill_time := 0 },
     [Effect.spawn p.sheriff_id newpid], 0)

/-- `stop_cmd` (procman_deputy.c:258).  A handle with `pid == 0` is a
no-op; a call within 900 000 µs of a recorded `last_kill_time` returns
without signalling; otherwise SIGTERM is sent while `num_kills_sent ≤ 5`
and SIGKILL after, the kill counter is incremented and `last_kill_time`
set to now.  `procman_kill_cmd` is modelled from the spec ("send signal to
pid; fails with NotRunning if pid == 0"); here `pid ≠ 0`, so it returns
0 and the "kill:" diagnostic line is never reached. -/
def stop_cmd (now : Int) (p : ProcmanCmd) : ProcmanCmd × List Effect × Int :=
  if p.pid = 0 then (p, [], 0)
  else if p.last_kill_time ≠ 0 ∧ now < p.last_kill_time + 900000 then
    (p, [], 0)
  else
    ({ p with num_kills_sent := p.num_kills_sent + 1, last_kill_time := now },
     [Effect.signal p.pid (if p.num_kills_sent > 5 then SIGKILL else SIGTERM)],
     0)

/-- `procmd_orders_find_cmd` (procman_deputy.c:554): first order record
with the given sheriff id, if any. -/
def procmd_orders_find_cmd (o : Orders) (sheriff_id : Int) : Option SheriffCmd :=
  o.cmds.find? (fun c => c.sheriff_id == sheriff_id)

/-- `find_local_cmd` (procman_deputy.c:564): first table entry with the
given sheriff id, if any. -/
def find_local_cmd (table : List ProcmanCmd) (sheriff_id : Int) : Option ProcmanCmd :=
  table.find? (fun p => p.sheriff_id == sheriff_id)

/-- Replace the first table entry carrying `sid` by `q`, leaving the rest
unchanged — the in-place mutation performed through the pointer returned
by `find_local_cmd`. -/
def update_first (sid : Int) (q : ProcmanCmd) : List ProcmanCmd → List ProcmanCmd
  | [] => []
  | p :: rest =>
      if p.sheriff_id = sid then q :: rest else p :: update_first sid q rest

/-- The fresh handle built for an order record with no local match
(procman_deputy.c:663): `procman_add_cmd` (modelled from the spec:
"allocate new handle, assign argv by tokenizing name; does not spawn", so
`pid = 0` and no watch) plus the `calloc`-zeroed `pmd_cmd_moreinfo_t`
with `sheriff_id`, `group` and `nickname` copied from the order. -/
def new_cmd (c : SheriffCmd) : ProcmanCmd :=
  { str := c.name, pid := 0, exit_status := 0, stdout_watch := false,
    sheriff_id := c.sheriff_id, actual_runid := 0,
    num_kills_sent := 0, last_kill_time := 0, remove_requested := false,
    group := c.group, nickname := c.nickname,
    cpu_time0 := ⟨0, 0, 0, 0⟩, cpu_time1 := ⟨0, 0, 0, 0⟩, cpu_usage := 0 }

/-- The start/stop decision of the reconciler (procman_deputy.c:705-717).
`procman_get_cmd_status` is modelled from the spec ("RUNNING iff
pid != 0, else STOPPED") and the status is read off `p.pid`.  The first
branch starts the command and then (line 710) sets
`actual_runid := desired_runid` unconditionally; the second stops it; the
final `else` records `actual_runid := desired_runid` without taking
action. -/
def apply_transition (env : Env) (p : ProcmanCmd) (c : SheriffCmd) :
    ProcmanCmd × List Effect × Bool :=
  if p.pid = 0 ∧ p.actual_runid ≠ c.desired_runid ∧ c.force_quit = false then
    let r := start_cmd env p c.desired_runid
    ({ r.1 with actual_runid := c.desired_runid }, r.2.1, true)
  else if p.pid ≠ 0 ∧ (c.force_quit = true ∨ c.desired_runid ≠ p.actual_runid) then
    let r := stop_cmd env.now p
    (r.1, r.2.1, true)
  else
    ({ p with actual_runid := c.desired_runid }, [], false)

/-- Per-record processing of the reconciler once a handle is in hand
(procman_deputy.c:676-717): rename if the command string differs
(`procman_cmd_change_str`, modelled from the spec: "mutates stored name
and re-tokenizes argv; does NOT affect the running pid"), update nickname
and group if they differ, then apply the start/stop transition.  The
returned boolean is the contribution to `action_taken`. -/
def process_cmd (env : Env) (p0 : ProcmanCmd) (c : SheriffCmd) :
    ProcmanCmd × List Effect × Bool :=
  let r1 := if p0.str ≠ c.name then ({ p0 with str := c.name }, true)
            else (p0, false)
  let r2 := if r1.1.nickname ≠ c.nickname
            then ({ r1.1 with nickname := c.nickname }, true) else (r1.1, false)
  let r3 := if r2.1.group ≠ c.group
            then ({ r2.1 with group := c.group }, true) else (r2.1, false)
  let r4 := apply_transition env r3.1 c
  (r4.1, r4.2.1, r1.2 || r2.2 || r3.2 || r4.2.2)

/-- One iteration of the reconciler's per-command loop
(procman_deputy.c:648-718): look up the record's sheriff id; reuse the
handle if found, otherwise create it (which counts as an action). -/
def reconcile_one (env : Env) (table : List ProcmanCmd) (c : SheriffCmd) :
    List ProcmanCmd × List Effect × Bool :=
  match find_local_cmd table c.sheriff_id with
  | some p =>
      let r := process_cmd env p c
      (update_first c.sheriff_id r.1 table, r.2.1, r.2.2)
  | none =>
      let r := process_cmd env (new_cmd c) c
      (table ++ [r.1], r.2.1, true)

/-- The reconciler's per-command loop over the whole order. -/
def reconcile_all (env : Env) (table : List ProcmanCmd) :
    List SheriffCmd → List ProcmanCmd × List Effect × Bool
  | [] => (table, [], false)
  | c :: cs =>
      let r := reconcile_one env table c
      let s := reconcile_all env r.1 cs
      (s.1, r.2.1 ++ s.2.1, r.2.2 || s.2.2)

/-- The orphan cull (procman_deputy.c:722-758): every table entry whose
sheriff id does not appear in the order is removed at once when not
running, and otherwise marked `remove_requested` and stopped.  Each orphan
counts as an action. -/
def cull_orphans (env : Env) (o : Orders) :
    List ProcmanCmd → List ProcmanCmd × List Effect × Bool
  | [] => ([], [], false)
  | p :: rest =>
      let r := cull_orphans env o rest
      match procmd_orders_find_cmd o p.sheriff_id with
      | some _ => (p :: r.1, r.2.1, r.2.2)
      | none =>
          if p.pid ≠ 0 then
            let sr := stop_cmd env.now { p with remove_requested := true }
            (sr.1 :: r.1, sr.2.1 ++ r.2.1, true)
          else
            (r.1, r.2.1, true)

/-- Text of the stale-order diagnostic (procman_deputy.c:617). -/
def stale_text (now utime : Int) : String :=
  "ignoring stale orders (utime " ++ toString ((now - utime) / 1000000) ++
    " seconds ago). You may want to check the system clocks!\n"

/-- Sheriff tracking (procman_deputy.c:624-641): prepend the sheriff name
to the observed set when unseen since the last MARK, and make it the most
recently observed sheriff. -/
def track_sheriff (s : Deputy) (name : String) : Deputy :=
  { s with
    observed_sheriffs_slm :=
      if s.observed_sheriffs_slm.contains name then s.observed_sheriffs_slm
      else name :: s.observed_sheriffs_slm,
    last_sheriff_name := some name }

/-- The order handler `procman_deputy_order_received`
(procman_deputy.c:596-763): count the order; drop it silently when
addressed to another host; count it for this deputy; drop it with one
diagnostic per command when stale; otherwise track the sheriff, run the
per-command loop, cull orphans, and publish a telemetry snapshot when any
action was taken. -/
def procman_deputy_order_received (env : Env) (s : Deputy) (orders : Orders) :
    Deputy × List Effect :=
  let s1 := { s with norders_slm := s.norders_slm + 1 }
  if orders.host ≠ s1.hostname then (s1, [])
  else
    let s2 := { s1 with norders_forme_slm := s1.norders_forme_slm + 1 }
    if env.now - orders.utime > PROCMAN_MAX_MESSAGE_AGE_USEC then
      ({ s2 with nstale_orders_slm := s2.nstale_orders_slm + 1 },
       orders.cmds.map (fun c =>
         Effect.log c.sheriff_id (stale_text env.now orders.utime)))
    else
      let s3 := track_sheriff s2 orders.sheriff_name
      let r := reconcile_all env s3.cmds orders.cmds
      let cu := cull_orphans env orders r.1
      ({ s3 with cmds := cu.1 },
       r.2.1 ++ cu.2.1 ++ if r.2.2 || cu.2.2 then [Effect.telemetry] else [])

/-- 2^64, the modulus of the `uint64_t` jiffy arithmetic in
`update_cpu_times`. -/
def UINT64_MOD : Nat := 2 ^ 64

/-- The C expression `x - y` at type `uint64_t`, for operands below
`UINT64_MOD`. -/
def usub64 (x y : Nat) : Nat := (x + (UINT64_MOD - y % UINT64_MOD)) % UINT64_MOD

/-- `ellapsed_jiffies` of `update_cpu_times` (procman_deputy.c:454):
total system jiffies between the previous sample `b` and the current
sample `a`, in `uint64_t` arithmetic. -/
def ellapsed_jiffies (a b : SysCpuMem) : Nat :=
  (usub64 a.user b.user + usub64 a.user_low b.user_low +
   usub64 a.system b.system + usub64 a.idle b.idle) % UINT64_MOD

/-- `loaded_jiffies` of `update_cpu_times` (procman_deputy.c:458). -/
def loaded_jiffies (a b : SysCpuMem) : Nat :=
  (usub64 a.user b.user + usub64 a.user_low b.user_low +
   usub64 a.system b.system) % UINT64_MOD

/-- `used_jiffies` of the per-child block of `update_cpu_times`
(procman_deputy.c:483). -/
def used_jiffies (pa pb : ProcCpuMem) : Nat :=
  (usub64 pa.user pb.user + usub64 pa.system pb.system) % UINT64_MOD

/-- Per-child block of `update_cpu_times` (procman_deputy.c:467-499).
`read_proc` supplies the outcome of `procinfo_read_proc_cpu_mem` for a
pid (`none` models a nonzero status).  For a running child with a good
read, `cpu_usage` is zeroed when the elapsed system jiffies are zero or
either previous child counter is zero, and is `used/ellapsed` otherwise;
a failed read or a stopped child zeroes `cpu_usage` and the current
sample's `vsize`/`rss`.  The trailing `memcpy` rotates the current sample
into the previous slot. -/
def update_cmd_cpu (ellapsed : Nat) (read_proc : Nat → Option ProcCpuMem)
    (p : ProcmanCmd) : ProcmanCmd :=
  if p.pid ≠ 0 then
    match read_proc p.pid with
    | none =>
        let cur := { p.cpu_time1 with vsize := 0, rss := 0 }
        { p with cpu_usage := 0, cpu_time1 := cur, cpu_time0 := cur }
    | some pa =>
        let usage : ℚ :=
          if ellapsed = 0 ∨ p.cpu_time0.user = 0 ∨ p.cpu_time0.system = 0
          then 0
          else (used_jiffies pa p.cpu_time0 : ℚ) / (ellapsed : ℚ)
        { p with cpu_usage := usage, cpu_time1 := pa, cpu_time0 := pa }
  else
    let cur := { p.cpu_time1 with vsize := 0, rss := 0 }
    { p with cpu_usage := 0, cpu_time1 := cur, cpu_time0 := cur }

/-- `update_cpu_times` (procman_deputy.c:439): read the system sample
(`read_sys = none` models a failed `procinfo_read_sys_cpu_mem`, which in
the source leaves `cpu_time[1]` as it was), derive `cpu_load` with the
`ellapsed == 0` guard, update every child, and rotate current into
previous. -/
def update_cpu_times (read_sys : Option SysCpuMem)
    (read_proc : Nat → Option ProcCpuMem) (s : Deputy) : Deputy :=
  let cur := match read_sys with
             | some v => v
             | none => s.cpu_time1
  let ellapsed := ellapsed_jiffies cur s.cpu_time0
  let load : ℚ :=
    if ellapsed = 0 then 0
    else (loaded_jiffies cur s.cpu_time0 : ℚ) / (ellapsed : ℚ)
  { s with cpu_load := load,
           cmds := s.cmds.map (update_cmd_cpu ellapsed read_proc),
           cpu_time1 := cur, cpu_time0 := cur }

/-- Reap of one dead child inside `check_for_dead_children`
(procman_deputy.c:318-368): `procman_check_for_dead_children` is modelled
from the spec ("nonblocking waitpid over owned children; fills
exit_status, zeroes pid"); the handler then detaches the stdout watch and
closes the pipe, and deletes the handle when `remove_requested`.  The
first table entry carrying the reaped sheriff id with a nonzero pid is
affected; an id naming no running entry is ignored. -/
def reap_one (sheriff_id : Int) (exit_status : Int) :
    List ProcmanCmd → List ProcmanCmd
  | [] => []
  | p :: rest =>
      if p.sheriff_id = sheriff_id ∧ p.pid ≠ 0 then
        if p.remove_requested then rest
        else { p with pid := 0, exit_status := exit_status,
                      stdout_watch := false } :: rest
      else p :: reap_one sheriff_id exit_status rest

/-- State effect of `check_for_dead_children` (procman_deputy.c:312):
the handler loops until no reapable child remains; the OS's choice of
dead children is supplied as the list `reaps` of (sheriff id, raw wait
status) pairs.  Pipe draining and the exit log lines are output-only and
carry no deputy state. -/
def check_for_dead_children (reaps : List (Int × Int))
    (table : List ProcmanCmd) : List ProcmanCmd :=
  reaps.foldl (fun t r => reap_one r.1 r.2 t) table

/-- Counter reset of `introspection_timeout` (procman_deputy.c:541-549):
zero the since-last-MARK counters and clear the observed-sheriff set
(`last_sheriff_name` is kept). -/
def introspection_timeout (s : Deputy) : Deputy :=
  { s with norders_slm := 0, norders_forme_slm := 0, nstale_orders_slm := 0,
           observed_sheriffs_slm := [] }

/-- One asynchronous input of the deputy's event loop: an orders message,
a SIGCHLD burst (with the OS-chosen reap outcomes), the 1 s sampler tick
(with the outcomes of the two statistics reads), or the 120 s
introspection tick. -/
inductive DeputyEvent where
  | order (env : Env) (o : Orders)
  | sigchld (reaps : List (Int × Int))
  | tick (read_sys : Option SysCpuMem) (read_proc : Nat → Option ProcCpuMem)
  | mark

/-- Dispatch of one event by the event loop. -/
def deputy_step (s : Deputy) : DeputyEvent → Deputy
  | .order env o => (procman_deputy_order_received env s o).1
  | .sigchld reaps => { s with cmds := check_for_dead_children reaps s.cmds }
  | .tick rs rp => update_cpu_times rs rp s
  | .mark => introspection_timeout s

/-- The deputy state after `main` has initialised (procman_deputy.c:849):
the structure is `memset` to zero, so every counter starts at 0 and the
table empty. -/
def initial_deputy (hostname : String) : Deputy :=
  { hostname := hostname, norders_slm := 0, norders_forme_slm := 0,
    nstale_orders_slm := 0, observed_sheriffs_slm := [],
    last_sheriff_name := none,
    cpu_time0 := ⟨0, 0, 0, 0, 0, 0, 0, 0⟩,
    cpu_time1 := ⟨0, 0, 0, 0, 0, 0, 0, 0⟩,
    cpu_load := 0, cmds := [] }

/-- A whole run of the deputy: the event loop dispatches events
serially. -/
def deputy_run (s : Deputy) (evs : List DeputyEvent) : Deputy :=
  evs.foldl deputy_step s

/-- Iterated invocations of `stop_cmd` at the given timestamps, collecting
the emitted effects. -/
def stop_calls (p : ProcmanCmd) : List Int → ProcmanCmd × List Effect
  | [] => (p, [])
  | t :: ts =>
      let r := stop_cmd t p
      let s := stop_calls r.1 ts
      (s.1, r.2.1 ++ s.2)

/-- The identity updates (name, nickname, group) the reconciler applies to
a handle before the start/stop decision. -/
def rename_upd (p : ProcmanCmd) (c : SheriffCmd) : ProcmanCmd :=
  { p with str := c.name, nickname := c.nickname, group := c.group }

/-- Two system samples are valid when the counters did not decrease or
wrap between them: the later sample dominates componentwise, each counter
fits in 64 bits, and the total elapsed jiffies fit in 64 bits. -/
def sys_sample_valid (a b : SysCpuMem) : Prop :=
  b.user ≤ a.user ∧ b.user_low ≤ a.user_low ∧ b.system ≤ a.system ∧
  b.idle ≤ a.idle ∧
  a.user < UINT64_MOD ∧ a.user_low < UINT64_MOD ∧
  a.system < UINT64_MOD ∧ a.idle < UINT64_MOD ∧
  (a.user - b.user) + (a.user_low - b.user_low) +
    (a.system - b.system) + (a.idle - b.idle) < UINT64_MOD

/-- The reconciliation-counter invariant maintained between introspection
resets. -/
def counters_inv (s : Deputy) : Prop :=
  s.norders_forme_slm ≤ s.norders_slm ∧
  s.nstale_orders_slm ≤ s.norders_forme_slm

/-- Hypothesis under which run ids cannot go backwards: every order
command aimed at an existing handle carries a desired run id at least the
handle's current one. -/
def orders_monotone (s : Deputy) : DeputyEvent → Prop
  | DeputyEvent.order _ o =>
      ∀ c ∈ o.cmds, ∀ p ∈ s.cmds, p.sheriff_id = c.sheriff_id →
        p.actual_runid ≤ c.desired_runid
  | _ => True

/-- A stopped handle whose current run id is 5, as left by five earlier
generations. -/
def c3_cmd : ProcmanCmd :=
  { str := "sleep 60", pid := 0, exit_status := 0, stdout_watch := false,
    sheriff_id := 1, actual_runid := 5, num_kills_sent := 0,
    last_kill_time := 0, remove_requested := false, group := "g",
    nickname := "n", cpu_time0 := ⟨0, 0, 0, 0⟩, cpu_time1 := ⟨0, 0, 0, 0⟩,
    cpu_usage := 0 }

/-- Environment for the run-id counterexample: the clock reads 100 s and
no spawn ever succeeds (none is attempted). -/
def c3_env : Env := { now := 100000000, spawn_pid := fun _ => 0 }

/-- Deputy owning exactly the handle `c3_cmd`. -/
def c3_deputy : Deputy := { initial_deputy "host" with cmds := [c3_cmd] }

/-- A fresh, correctly addressed force-quit order carrying a smaller
desired run id (3) for the stopped handle. -/
def c3_orders : Orders :=
  { utime := 100000000, host := "host", sheriff_name := "sheriff",
    cmds := [{ name := "sleep 60", nickname := "n", group := "g",
               sheriff_id := 1, desired_runid := 3, force_quit := true }] }

/-- Environment whose fork always yields pid 42 at time 2 s. -/
def w1_env : Env := { now := 2000000, spawn_pid := fun _ => 42 }

/-- A stopped handle at run id 5 with sheriff id 1. -/
def w1_stopped : ProcmanCmd :=
  { str := "a", pid := 0, exit_status := 0, stdout_watch := false,
    sheriff_id := 1, actual_runid := 5, num_kills_sent := 0,
    last_kill_time := 0, remove_requested := false, group := "g",
    nickname := "n", cpu_time0 := ⟨0, 0, 0, 0⟩, cpu_time1 := ⟨0, 0, 0, 0⟩,
    cpu_usage := 0 }

/-- A running handle (pid 9) at run id 5 with sheriff id 2. -/
def w1_running : ProcmanCmd :=
  { w1_stopped with pid := 9, stdout_watch := true, sheriff_id := 2 }

/-- Order record requesting generation 7 of command 1. -/
def w1_start_order : SheriffCmd :=
  { name := "a", nickname := "n", group := "g", sheriff_id := 1,
    desired_runid := 7, force_quit := false }

/-- Order record force-quitting command 1 at generation 7. -/
def w1_fq_order : SheriffCmd := { w1_start_order with force_quit := true }

/-- Order record force-quitting command 2 at its current generation. -/
def w1_stop_order : SheriffCmd :=
  { w1_start_order with sheriff_id := 2, desired_runid := 5,
                        force_quit := true }

/-- Order record leaving command 2 at its current generation. -/
def w1_same_order : SheriffCmd :=
  { w1_start_order with sheriff_id := 2, desired_runid := 5 }

/-- A running handle mid-escalation: two kills sent, the last at
t = 100 000 µs. -/
def w2_p : ProcmanCmd :=
  { w1_running with pid := 9, num_kills_sent := 2, last_kill_time := 100000 }

/-- A freshly spawned running handle (no kills yet). -/
def w2_q : ProcmanCmd := { w1_running with pid := 8 }

/-- A stopped handle offered to `stop_cmd`. -/
def w2_r : ProcmanCmd := { w1_stopped with sheriff_id := 3 }

/-- A stopped handle at generation 1 awaiting its restart. -/
def w3_cmd : ProcmanCmd :=
  { w1_stopped with actual_runid := 1 }

/-- Deputy owning exactly `w3_cmd`. -/
def w3_deputy : Deputy := { initial_deputy "h" with cmds := [w3_cmd] }

/-- Environment whose fork yields pid 50 at time 1 s. -/
def w3_env : Env := { now := 1000000, spawn_pid := fun _ => 50 }

/-- A fresh order bumping command 1 to generation 2. -/
def w3_orders : Orders :=
  { utime := 1000000, host := "h", sheriff_name := "s",
    cmds := [{ name := "a", nickname := "n", group := "g",
               sheriff_id := 1, desired_runid := 2, force_quit := false }] }

/-- The handle after the order: started with pid 50 at generation 2. -/
def w3_after : ProcmanCmd :=
  { w3_cmd with pid := 50, stdout_watch := true, actual_runid := 2 }

/-- Environment of the orphan-cull scenario: clock at 1000 µs. -/
def w4_env : Env := { now := 1000, spawn_pid := fun _ => 0 }

/-- A running handle with sheriff id 1. -/
def w4_p1 : ProcmanCmd :=
  { w1_stopped with pid := 42, stdout_watch := true, actual_runid := 1 }

/-- A stopped handle with sheriff id 2. -/
def w4_p2 : ProcmanCmd := { w1_stopped with sheriff_id := 2 }

/-- Deputy owning both handles. -/
def w4_deputy : Deputy := { initial_deputy "h" with cmds := [w4_p1, w4_p2] }

/-- A fresh order for this deputy naming no command at all. -/
def w4_orders : Orders :=
  { utime := 1000, host := "h", sheriff_name := "s", cmds := [] }

/-- The running orphan after the cull: flagged for removal and signalled
once. -/
def w4_survivor : ProcmanCmd :=
  { w4_p1 with remove_requested := true, num_kills_sent := 1,
               last_kill_time := 1000 }

/-- Environment of the stale-order scenario: clock at 100 s. -/
def w5_env : Env := { now := 100000000, spawn_pid := fun _ => 0 }

/-- A deputy with an empty table. -/
def w5_deputy : Deputy := initial_deputy "h"

/-- An order for this deputy stamped 61 s in the past. -/
def w5_orders : Orders :=
  { utime := 39000000, host := "h", sheriff_name := "s",
    cmds := [{ name := "x", nickname := "x", group := "",
               sheriff_id := 4, desired_runid := 1, force_quit := false }] }

/-- Environment of the misaddressed-order scenario. -/
def w6_env : Env := { now := 0, spawn_pid := fun _ => 0 }

/-- An order addressed to another host. -/
def w6_orders : Orders :=
  { utime := 0, host := "other", sheriff_name := "s", cmds := [] }

/-- Environment whose fork always fails. -/
def w7_env : Env := { now := 0, spawn_pid := fun _ => 0 }

/-- A stopped handle named "prog" with sheriff id 9. -/
def w7_p : ProcmanCmd := { w1_stopped with sheriff_id := 9, str := "prog" }

/-- Environment of the rename scenario. -/
def w8_env : Env := { now := 0, spawn_pid := fun _ => 0 }

/-- A running handle (pid 7) at generation 4 named "old cmd". -/
def w8_p : ProcmanCmd :=
  { w1_running with str := "old cmd", pid := 7, actual_runid := 4 }

/-- An order record renaming command 2 without bumping its generation. -/
def w8_c : SheriffCmd :=
  { name := "new cmd", nickname := "n", group := "g", sheriff_id := 2,
    desired_runid := 4, force_quit := false }

/-- Current system sample of the sampler scenario: 100 jiffies elapsed
from the all-zero previous sample, 40 of them loaded. -/
def w9_a : SysCpuMem := ⟨30, 0, 10, 60, 0, 0, 0, 0⟩

/-- A running child (pid 3) with a nonzero previous sample. -/
def w9_cmd : ProcmanCmd :=
  { w1_running with pid := 3, cpu_time0 := ⟨5, 5, 0, 0⟩ }

/-- Deputy owning the child, with the all-zero initial system sample as
previous. -/
def w9_deputy : Deputy := { initial_deputy "h" with cmds := [w9_cmd] }

/-- Per-pid statistics read of the scenario. -/
def w9_rp : Nat → Option ProcCpuMem := fun pid =>
  if pid = 3 then some ⟨8, 7, 100, 200⟩ else none

/-- Environment whose fork yields pid 77. -/
def w10_env : Env := { now := 0, spawn_pid := fun _ => 77 }

/-- A stopped handle with stale kill bookkeeping from a former life. -/
def w10_p : ProcmanCmd :=
  { w1_stopped with sheriff_id := 6, num_kills_sent := 9,
                    last_kill_time := 999999999 }

lemma process_cmd_char (env : Env) (p : ProcmanCmd) (c : SheriffCmd) :
    (process_cmd env p c).1 = (apply_transition env (rename_upd p c) c).1 ∧
    (process_cmd env p c).2.1 = (apply_transition env (rename_upd p c) c).2.1 := by
  cases p
  simp only [process_cmd, rename_upd]
  split_ifs <;> simp_all

lemma apply_transition_start (env : Env) (p : ProcmanCmd) (c : SheriffCmd)
    (h0 : p.pid = 0) (hne : p.actual_runid ≠ c.desired_runid)
    (hfq : c.force_quit = false) :
    apply_transition env p c =
      ({ (start_cmd env p c.desired_runid).1 with actual_runid := c.desired_runid },
       (start_cmd env p c.desired_runid).2.1, true) := by
  simp [apply_transition, h0, hne, hfq]

lemma apply_transition_stop (env : Env) (p : ProcmanCmd) (c : SheriffCmd)
    (h0 : p.pid ≠ 0) (h : c.force_quit = true ∨ c.desired_runid ≠ p.actual_runid) :
    apply_transition env p c =
      ((stop_cmd env.now p).1, (stop_cmd env.now p).2.1, true) := by
  have : ¬ (p.pid = 0 ∧ p.actual_runid ≠ c.desired_runid ∧ c.force_quit = false) := by
    simp [h0]
  simp [apply_transition, this, h0, h]

lemma apply_transition_noop (env : Env) (p : ProcmanCmd) (c : SheriffCmd)
    (h : ¬ (p.pid = 0 ∧ p.actual_runid ≠ c.desired_runid ∧ c.force_quit = false))
    (h2 : ¬ (p.pid ≠ 0 ∧ (c.force_quit = true ∨ c.desired_runid ≠ p.actual_runid))) :
    apply_transition env p c = ({ p with actual_runid := c.desired_runid }, [], false) := by
  simp only [apply_transition, if_neg h, if_neg h2]

lemma start_cmd_success (env : Env) (p : ProcmanCmd) (d : Int)
    (h : env.spawn_pid p.sheriff_id ≠ 0) :
    start_cmd env p d =
      ({ p with pid := env.spawn_pid p.sheriff_id, stdout_watch := true,
                actual_runid := d, num_kills_sent := 0, last_kill_time := 0 },
       [Effect.spawn p.sheriff_id (env.spawn_pid p.sheriff_id)], 0) := by
  simp [start_cmd, h]

lemma start_cmd_failure (env : Env) (p : ProcmanCmd) (d : Int)
    (h : env.spawn_pid p.sheriff_id = 0) :
    start_cmd env p d =
      (p, [Effect.log 0 ("couldn't start [" ++ p.str ++ "]\n"),
           Effect.log p.sheriff_id ("ERROR!  couldn't start [" ++ p.str ++ "]\n")],
       -1) := by
  simp [start_cmd, h]

lemma rename_upd_pid (p : ProcmanCmd) (c : SheriffCmd) : (rename_upd p c).pid = p.pid := rfl

lemma rename_upd_runid (p : ProcmanCmd) (c : SheriffCmd) :
    (rename_upd p c).actual_runid = p.actual_runid := rfl

lemma rename_upd_sid (p : ProcmanCmd) (c : SheriffCmd) :
    (rename_upd p c).sheriff_id = p.sheriff_id := rfl

lemma stop_cmd_congr (now : Int) (p q : ProcmanCmd)
    (hp : q.pid = p.pid) (hl : q.last_kill_time = p.last_kill_time)
    (hn : q.num_kills_sent = p.num_kills_sent) :
    (stop_cmd now q).2.1 = (stop_cmd now p).2.1 ∧
    (stop_cmd now q).1.num_kills_sent = (stop_cmd now p).1.num_kills_sent ∧
    (stop_cmd now q).1.last_kill_time = (stop_cmd now p).1.last_kill_time := by
  simp only [stop_cmd, hp, hl, hn]
  split_ifs <;> simp_all

lemma stop_cmd_frame (now : Int) (p : ProcmanCmd) :
    (stop_cmd now p).1.pid = p.pid ∧
    (stop_cmd now p).1.actual_runid = p.actual_runid ∧
    (stop_cmd now p).1.sheriff_id = p.sheriff_id ∧
    (stop_cmd now p).1.remove_requested = p.remove_requested := by
  simp only [stop_cmd]
  split_ifs <;> simp_all

lemma start_cmd_sid (env : Env) (p : ProcmanCmd) (d : Int) :
    (start_cmd env p d).1.sheriff_id = p.sheriff_id := by
  simp only [start_cmd]
  split_ifs <;> rfl

lemma process_cmd_sid (env : Env) (p : ProcmanCmd) (c : SheriffCmd) :
    (process_cmd env p c).1.sheriff_id = p.sheriff_id := by
  obtain ⟨hc1, _⟩ := process_cmd_char env p c
  rw [hc1]
  simp only [apply_transition]
  split_ifs with h1 h2
  · simp [start_cmd_sid, rename_upd]
  · rw [(stop_cmd_frame env.now (rename_upd p c)).2.2.1]
    rfl
  · rfl

lemma update_first_mem_self (sid : Int) (q : ProcmanCmd) (l : List ProcmanCmd)
    (h : ∃ p ∈ l, p.sheriff_id = sid) : q ∈ update_first sid q l := by
  induction l with
  | nil => simp at h
  | cons p rest ih =>
      obtain ⟨x, hx, hsid⟩ := h
      simp only [update_first]
      rcases List.mem_cons.mp hx with rfl | hx
      · simp [hsid]
      · split_ifs
        · simp
        · exact List.mem_cons_of_mem _ (ih ⟨x, hx, hsid⟩)

lemma find_local_cmd_some (table : List ProcmanCmd) (sid : Int) (p : ProcmanCmd)
    (h : find_local_cmd table sid = some p) : p ∈ table ∧ p.sheriff_id = sid := by
  refine ⟨List.mem_of_find?_eq_some h, ?_⟩
  have := List.find?_some h
  simpa using this

lemma find_local_cmd_none (table : List ProcmanCmd) (sid : Int)
    (h : find_local_cmd table sid = none) : ∀ p ∈ table, p.sheriff_id ≠ sid := by
  intro p hp
  have := List.find?_eq_none.mp h p hp
  simpa using this

lemma usub64_of_le (x y : Nat) (h : y ≤ x) (hx : x < UINT64_MOD) :
    usub64 x y = x - y := by
  unfold usub64 UINT64_MOD at *
  omega

lemma loaded_le_ellapsed (a b : SysCpuMem) (h : sys_sample_valid a b) :
    loaded_jiffies a b ≤ ellapsed_jiffies a b := by
  obtain ⟨h1, h2, h3, h4, b1, b2, b3, b4, hs⟩ := h
  rw [loaded_jiffies, ellapsed_jiffies,
      usub64_of_le _ _ h1 b1, usub64_of_le _ _ h2 b2,
      usub64_of_le _ _ h3 b3, usub64_of_le _ _ h4 b4,
      Nat.mod_eq_of_lt (by omega), Nat.mod_eq_of_lt hs]
  omega

lemma order_received_counters (env : Env) (s : Deputy) (o : Orders) :
    (procman_deputy_order_received env s o).1.norders_slm = s.norders_slm + 1 ∧
    (procman_deputy_order_received env s o).1.norders_forme_slm =
      s.norders_forme_slm + (if o.host = s.hostname then 1 else 0) ∧
    ((procman_deputy_order_received env s o).1.nstale_orders_slm =
        s.nstale_orders_slm ∨
     ((procman_deputy_order_received env s o).1.nstale_orders_slm =
        s.nstale_orders_slm + 1 ∧ o.host = s.hostname)) := by
  simp only [procman_deputy_order_received]
  split_ifs with h1 h2 <;> simp_all [track_sheriff]

lemma deputy_step_counters_inv (s : Deputy) (ev : DeputyEvent)
    (h : counters_inv s) : counters_inv (deputy_step s ev) := by
  obtain ⟨h1, h2⟩ := h
  cases ev with
  | order env o =>
      obtain ⟨c1, c2, c3⟩ := order_received_counters env s o
      constructor
      · show (procman_deputy_order_received env s o).1.norders_forme_slm ≤
          (procman_deputy_order_received env s o).1.norders_slm
        rw [c1, c2]
        split_ifs <;> omega
      · show (procman_deputy_order_received env s o).1.nstale_orders_slm ≤
          (procman_deputy_order_received env s o).1.norders_forme_slm
        rw [c2]
        rcases c3 with c3 | ⟨c3, hh⟩
        · rw [c3]
          split_ifs <;> omega
        · rw [c3, if_pos hh]
          omega
  | sigchld reaps => exact ⟨h1, h2⟩
  | tick rs rp => exact ⟨h1, h2⟩
  | mark => exact ⟨Nat.le_refl 0, Nat.le_refl 0⟩

lemma mem_update_first_of_ne (sid : Int) (q x : ProcmanCmd) (l : List ProcmanCmd)
    (hx : x ∈ l) (hne : x.sheriff_id ≠ sid) : x ∈ update_first sid q l := by
  induction l with
  | nil => simp at hx
  | cons p rest ih =>
      simp only [update_first]
      rcases List.mem_cons.mp hx with rfl | hx
      · split_ifs with h
        · exact absurd h hne
        · simp
      · split_ifs
        · exact List.mem_cons_of_mem _ hx
        · exact List.mem_cons_of_mem _ (ih hx)

lemma map_sid_update_first (sid : Int) (q : ProcmanCmd) (l : List ProcmanCmd)
    (hq : q.sheriff_id = sid) :
    (update_first sid q l).map (·.sheriff_id) = l.map (·.sheriff_id) := by
  induction l with
  | nil => rfl
  | cons p rest ih =>
      simp only [update_first]
      split_ifs with h
      · simp [hq, h]
      · simp [ih]

lemma mem_reconcile_all_of_not_named (env : Env) (cs : List SheriffCmd)
    (table : List ProcmanCmd) (p : ProcmanCmd) (hp : p ∈ table)
    (h : ∀ c ∈ cs, c.sheriff_id ≠ p.sheriff_id) :
    p ∈ (reconcile_all env table cs).1 := by
  induction cs generalizing table with
  | nil => exact hp
  | cons c rest ih =>
      simp only [reconcile_all]
      apply ih
      · simp only [reconcile_one]
        cases hf : find_local_cmd table c.sheriff_id with
        | some q =>
            exact mem_update_first_of_ne _ _ _ _ hp
              (fun hc => h c (List.mem_cons_self c rest) hc.symm)
        | none => exact List.mem_append_left _ hp
      · exact fun c' hc' => h c' (List.mem_cons_of_mem _ hc')

lemma reconcile_all_sids_nodup (env : Env) (cs : List SheriffCmd)
    (table : List ProcmanCmd)
    (h : (table.map (·.sheriff_id)).Nodup) :
    ((reconcile_all env table cs).1.map (·.sheriff_id)).Nodup := by
  induction cs generalizing table with
  | nil => exact h
  | cons c rest ih =>
      simp only [reconcile_all]
      apply ih
      simp only [reconcile_one]
      cases hf : find_local_cmd table c.sheriff_id with
      | some q =>
          obtain ⟨_, hsid⟩ := find_local_cmd_some table c.sheriff_id q hf
          rw [map_sid_update_first c.sheriff_id _ table
              (by rw [process_cmd_sid, hsid])]
          exact h
      | none =>
          have hnotin : c.sheriff_id ∉ table.map (·.sheriff_id) := by
            intro hc
            obtain ⟨x, hx, hxs⟩ := List.mem_map.mp hc
            exact find_local_cmd_none table c.sheriff_id hf x hx hxs
          rw [List.map_append]
          simp only [List.map_cons, List.map_nil]
          rw [List.nodup_append]
          refine ⟨h, List.nodup_singleton _, ?_⟩
          intro a ha hb
          simp only [List.mem_singleton] at hb
          rw [process_cmd_sid] at hb
          have hb2 : a = c.sheriff_id := by simpa [new_cmd] using hb
          rw [hb2] at ha
          exact hnotin ha

lemma cull_orphans_not_named (env : Env) (o : Orders) (table : List ProcmanCmd) :
    ∀ p' ∈ (cull_orphans env o table).1,
      procmd_orders_find_cmd o p'.sheriff_id = none →
      p'.remove_requested = true ∧ p'.pid ≠ 0 := by
  induction table with
  | nil => simp [cull_orphans]
  | cons p rest ih =>
      intro p' hp' hnone
      simp only [cull_orphans] at hp'
      cases hf : procmd_orders_find_cmd o p.sheriff_id with
      | some c =>
          rw [hf] at hp'
          rcases List.mem_cons.mp hp' with rfl | hp'
          · rw [hnone] at hf
            exact absurd hf (by simp)
          · exact ih p' hp' hnone
      | none =>
          rw [hf] at hp'
          split_ifs at hp' with hpid
          · rcases List.mem_cons.mp hp' with rfl | hp'
            · obtain ⟨fpid, _, _, frr⟩ :=
                stop_cmd_frame env.now { p with remove_requested := true }
              exact ⟨by rw [frr], by rw [fpid]; exact hpid⟩
            · exact ih p' hp' hnone
          · exact ih p' hp' hnone

lemma cull_orphans_sid_origin (env : Env) (o : Orders) (table : List ProcmanCmd) :
    ∀ p' ∈ (cull_orphans env o table).1, p'.sheriff_id ∈ table.map (·.sheriff_id) := by
  induction table with
  | nil => simp [cull_orphans]
  | cons p rest ih =>
      intro p' hp'
      simp only [cull_orphans] at hp'
      cases hf : procmd_orders_find_cmd o p.sheriff_id with
      | some c =>
          rw [hf] at hp'
          rcases List.mem_cons.mp hp' with rfl | hp'
          · simp
          · exact List.mem_cons_of_mem _ (ih p' hp')
      | none =>
          rw [hf] at hp'
          split_ifs at hp' with hpid
          · rcases List.mem_cons.mp hp' with rfl | hp'
            · obtain ⟨_, _, fsid, _⟩ :=
                stop_cmd_frame env.now { p with remove_requested := true }
              rw [fsid]
              simp
            · exact List.mem_cons_of_mem _ (ih p' hp')
          · exact List.mem_cons_of_mem _ (ih p' hp')

lemma cull_orphans_deletes (env : Env) (o : Orders) (table : List ProcmanCmd)
    (huniq : (table.map (·.sheriff_id)).Nodup) (p : ProcmanCmd) (hp : p ∈ table)
    (hpid : p.pid = 0) (hnone : procmd_orders_find_cmd o p.sheriff_id = none) :
    ∀ p' ∈ (cull_orphans env o table).1, p'.sheriff_id ≠ p.sheriff_id := by
  induction table with
  | nil => simp at hp
  | cons q rest ih =>
      have hnd : (rest.map (·.sheriff_id)).Nodup := (List.nodup_cons.mp huniq).2
      have hhead : q.sheriff_id ∉ rest.map (·.sheriff_id) :=
        (List.nodup_cons.mp huniq).1
      intro p' hp'
      simp only [cull_orphans] at hp'
      rcases List.mem_cons.mp hp with rfl | hpmem
      · -- p is the head: it is dropped; survivors all come from rest
        rw [hnone] at hp'
        rw [if_neg (by simp [hpid])] at hp'
        intro hc
        exact hhead (by rw [← hc]; exact cull_orphans_sid_origin env o rest p' hp')
      · -- p is in the tail
        have hqp : q.sheriff_id ≠ p.sheriff_id := by
          intro hc
          exact hhead (by rw [hc]; exact List.mem_map_of_mem _ hpmem)
        cases hf : procmd_orders_find_cmd o q.sheriff_id with
        | some c =>
            rw [hf] at hp'
            rcases List.mem_cons.mp hp' with rfl | hp'
            · exact hqp
            · exact ih hnd hpmem p' hp'
        | none =>
            rw [hf] at hp'
            split_ifs at hp' with hqpid
            · rcases List.mem_cons.mp hp' with rfl | hp'
              · obtain ⟨_, _, fsid, _⟩ :=
                  stop_cmd_frame env.now { q with remove_requested := true }
                rw [fsid]
                exact hqp
              · exact ih hnd hpmem p' hp'
            · exact ih hnd hpmem p' hp'

lemma cull_orphans_stops (env : Env) (o : Orders) (table : List ProcmanCmd)
    (p : ProcmanCmd) (hp : p ∈ table) (hpid : p.pid ≠ 0)
    (hnone : procmd_orders_find_cmd o p.sheriff_id = none) :
    ∀ e ∈ (stop_cmd env.now { p with remove_requested := true }).2.1,
      e ∈ (cull_orphans env o table).2.1 := by
  induction table with
  | nil => simp at hp
  | cons q rest ih =>
      intro e he
      simp only [cull_orphans]
      rcases List.mem_cons.mp hp with rfl | hpmem
      · rw [hnone]
        rw [if_pos hpid]
        exact List.mem_append_left _ he
      · cases hf : procmd_orders_find_cmd o q.sheriff_id with
        | some c => exact ih hpmem e he
        | none =>
            split_ifs with hqpid
            · exact List.mem_append_right _ (ih hpmem e he)
            · exact ih hpmem e he

lemma order_received_live (env : Env) (s : Deputy) (orders : Orders)
    (hhost : orders.host = s.hostname)
    (hfresh : ¬ (env.now - orders.utime > PROCMAN_MAX_MESSAGE_AGE_USEC)) :
    (procman_deputy_order_received env s orders).1.cmds =
      (cull_orphans env orders (reconcile_all env s.cmds orders.cmds).1).1 ∧
    (∀ e, e ∈ (reconcile_all env s.cmds orders.cmds).2.1 ∨
          e ∈ (cull_orphans env orders
                 (reconcile_all env s.cmds orders.cmds).1).2.1 →
      e ∈ (procman_deputy_order_received env s orders).2) := by
  have hcond : ¬ (orders.host ≠ s.hostname) := by simp [hhost]
  constructor
  · simp [procman_deputy_order_received, hcond, hfresh, track_sheriff]
  · intro e he
    simp only [procman_deputy_order_received, if_neg hcond, if_neg hfresh]
    simp only [track_sheriff]
    rcases he with he | he
    · exact List.mem_append_left _ (List.mem_append_left _ he)
    · exact List.mem_append_left _ (List.mem_append_right _ he)

lemma process_cmd_runid (env : Env) (p : ProcmanCmd) (c : SheriffCmd) :
    (process_cmd env p c).1.actual_runid = p.actual_runid ∨
    (process_cmd env p c).1.actual_runid = c.desired_runid := by
  obtain ⟨hc1, _⟩ := process_cmd_char env p c
  rw [hc1]
  simp only [apply_transition]
  split_ifs with h1 h2
  · right; rfl
  · left
    rw [(stop_cmd_frame env.now (rename_upd p c)).2.1]
    rfl
  · right; rfl

lemma process_cmd_fresh_runid (env : Env) (c : SheriffCmd) :
    (process_cmd env (new_cmd c) c).1.actual_runid = c.desired_runid := by
  obtain ⟨hc1, _⟩ := process_cmd_char env (new_cmd c) c
  rw [hc1]
  have hpid : (rename_upd (new_cmd c) c).pid = 0 := rfl
  simp only [apply_transition]
  split_ifs with h1 h2
  · rfl
  · exact absurd hpid h2.1
  · rfl

lemma mem_update_first (sid : Int) (q x : ProcmanCmd) (l : List ProcmanCmd)
    (hx : x ∈ update_first sid q l) : x ∈ l ∨ x = q := by
  induction l with
  | nil => simp [update_first] at hx
  | cons p rest ih =>
      simp only [update_first] at hx
      split_ifs at hx
      · rcases List.mem_cons.mp hx with rfl | hx
        · exact Or.inr rfl
        · exact Or.inl (List.mem_cons_of_mem _ hx)
      · rcases List.mem_cons.mp hx with rfl | hx
        · exact Or.inl (List.mem_cons_self _ _)
        · rcases ih hx with h | h
          · exact Or.inl (List.mem_cons_of_mem _ h)
          · exact Or.inr h

lemma reconcile_all_runid (env : Env) (cs : List SheriffCmd)
    (table : List ProcmanCmd) :
    ∀ p' ∈ (reconcile_all env table cs).1,
      (∃ p ∈ table, p.sheriff_id = p'.sheriff_id ∧
         p'.actual_runid = p.actual_runid) ∨
      (∃ c ∈ cs, c.sheriff_id = p'.sheriff_id ∧
         p'.actual_runid = c.desired_runid) := by
  induction cs generalizing table with
  | nil => exact fun p' hp' => Or.inl ⟨p', hp', rfl, rfl⟩
  | cons c rest ih =>
      intro p' hp'
      simp only [reconcile_all] at hp'
      rcases ih (reconcile_one env table c).1 p' hp' with ⟨q, hq, hsid, hrid⟩ | ⟨c', hc', hsid, hrid⟩
      · -- q is in the table after processing record c
        simp only [reconcile_one] at hq
        cases hf : find_local_cmd table c.sheriff_id with
        | some pf =>
            rw [hf] at hq
            rcases mem_update_first _ _ _ _ hq with hq | rfl
            · exact Or.inl ⟨q, hq, hsid, hrid⟩
            · obtain ⟨hpfmem, hpfsid⟩ := find_local_cmd_some table c.sheriff_id pf hf
              rcases process_cmd_runid env pf c with hr | hr
              · exact Or.inl ⟨pf, hpfmem, by rw [← hsid, process_cmd_sid], by rw [hrid, hr]⟩
              · exact Or.inr ⟨c, List.mem_cons_self _ _,
                  by rw [← hsid, process_cmd_sid, hpfsid], by rw [hrid, hr]⟩
        | none =>
            rw [hf] at hq
            rcases List.mem_append.mp hq with hq | hq
            · exact Or.inl ⟨q, hq, hsid, hrid⟩
            · have hq1 : q = (process_cmd env (new_cmd c) c).1 := by simpa using hq
              refine Or.inr ⟨c, List.mem_cons_self _ _, ?_, ?_⟩
              · rw [← hsid, hq1, process_cmd_sid]
                rfl
              · rw [hrid, hq1, process_cmd_fresh_runid]
      · exact Or.inr ⟨c', List.mem_cons_of_mem _ hc', hsid, hrid⟩

lemma cull_orphans_runid (env : Env) (o : Orders) (table : List ProcmanCmd) :
    ∀ p' ∈ (cull_orphans env o table).1,
      ∃ p ∈ table, p.sheriff_id = p'.sheriff_id ∧
        p'.actual_runid = p.actual_runid := by
  induction table with
  | nil => simp [cull_orphans]
  | cons p rest ih =>
      intro p' hp'
      simp only [cull_orphans] at hp'
      cases hf : procmd_orders_find_cmd o p.sheriff_id with
      | some c =>
          rw [hf] at hp'
          rcases List.mem_cons.mp hp' with rfl | hp'
          · exact ⟨p', List.mem_cons_self _ _, rfl, rfl⟩
          · obtain ⟨q, hq, h1, h2⟩ := ih p' hp'
            exact ⟨q, List.mem_cons_of_mem _ hq, h1, h2⟩
      | none =>
          rw [hf] at hp'
          split_ifs at hp' with hpid
          · rcases List.mem_cons.mp hp' with rfl | hp'
            · obtain ⟨_, frid, fsid, _⟩ :=
                stop_cmd_frame env.now { p with remove_requested := true }
              exact ⟨p, List.mem_cons_self _ _, by rw [fsid], by rw [frid]⟩
            · obtain ⟨q, hq, h1, h2⟩ := ih p' hp'
              exact ⟨q, List.mem_cons_of_mem _ hq, h1, h2⟩
          · obtain ⟨q, hq, h1, h2⟩ := ih p' hp'
            exact ⟨q, List.mem_cons_of_mem _ hq, h1, h2⟩

lemma reap_one_runid (sid : Int) (x : Int) (table : List ProcmanCmd) :
    ∀ p' ∈ reap_one sid x table,
      ∃ p ∈ table, p.sheriff_id = p'.sheriff_id ∧
        p'.actual_runid = p.actual_runid := by
  induction table with
  | nil => simp [reap_one]
  | cons p rest ih =>
      intro p' hp'
      simp only [reap_one] at hp'
      split_ifs at hp' with h1 h2
      · exact ⟨p', List.mem_cons_of_mem _ hp', rfl, rfl⟩
      · rcases List.mem_cons.mp hp' with rfl | hp'
        · exact ⟨p, List.mem_cons_self _ _, rfl, rfl⟩
        · exact ⟨p', List.mem_cons_of_mem _ hp', rfl, rfl⟩
      · rcases List.mem_cons.mp hp' with rfl | hp'
        · exact ⟨p', List.mem_cons_self _ _, rfl, rfl⟩
        · obtain ⟨q, hq, a, b⟩ := ih p' hp'
          exact ⟨q, List.mem_cons_of_mem _ hq, a, b⟩

lemma check_for_dead_children_runid (reaps : List (Int × Int))
    (table : List ProcmanCmd) :
    ∀ p' ∈ check_for_dead_children reaps table,
      ∃ p ∈ table, p.sheriff_id = p'.sheriff_id ∧
        p'.actual_runid = p.actual_runid := by
  induction reaps generalizing table with
  | nil => exact fun p' hp' => ⟨p', hp', rfl, rfl⟩
  | cons r rest ih =>
      intro p' hp'
      obtain ⟨q, hq, a, b⟩ := ih (reap_one r.1 r.2 table) p' hp'
      obtain ⟨q2, hq2, a2, b2⟩ := reap_one_runid r.1 r.2 table q hq
      exact ⟨q2, hq2, by rw [a2, a], by rw [b, b2]⟩

lemma update_cmd_cpu_frame (ell : Nat) (rp : Nat → Option ProcCpuMem)
    (p : ProcmanCmd) :
    (update_cmd_cpu ell rp p).sheriff_id = p.sheriff_id ∧
    (update_cmd_cpu ell rp p).actual_runid = p.actual_runid := by
  unfold update_cmd_cpu
  by_cases h : p.pid ≠ 0
  · rw [if_pos h]
    cases hr : rp p.pid <;> simp [hr]
  · rw [if_neg h]
    exact ⟨rfl, rfl⟩

lemma order_received_runid (env : Env) (s : Deputy) (o : Orders) :
    ∀ p' ∈ (procman_deputy_order_received env s o).1.cmds,
      (∃ p ∈ s.cmds, p.sheriff_id = p'.sheriff_id ∧
         p'.actual_runid = p.actual_runid) ∨
      (∃ c ∈ o.cmds, c.sheriff_id = p'.sheriff_id ∧
         p'.actual_runid = c.desired_runid) := by
  intro p' hp'
  by_cases h1 : o.host ≠ s.hostname
  · simp only [procman_deputy_order_received, if_pos h1] at hp'
    exact Or.inl ⟨p', hp', rfl, rfl⟩
  · by_cases h2 : env.now - o.utime > PROCMAN_MAX_MESSAGE_AGE_USEC
    · simp only [procman_deputy_order_received, if_neg h1, if_pos h2] at hp'
      exact Or.inl ⟨p', hp', rfl, rfl⟩
    · obtain ⟨hcm, _⟩ := order_received_live env s o (not_ne_iff.mp h1) h2
      rw [hcm] at hp'
      obtain ⟨q, hq, hsid, hrid⟩ := cull_orphans_runid env o _ p' hp'
      rcases reconcile_all_runid env o.cmds s.cmds q hq with ⟨p, hp, a, b⟩ | ⟨c, hc, a, b⟩
      · exact Or.inl ⟨p, hp, by rw [a, hsid], by rw [hrid, b]⟩
      · exact Or.inr ⟨c, hc, by rw [a, hsid], by rw [hrid, b]⟩

lemma deputy_step_runid (s : Deputy) (ev : DeputyEvent) :
    ∀ p' ∈ (deputy_step s ev).cmds,
      (∃ p ∈ s.cmds, p.sheriff_id = p'.sheriff_id ∧
         p'.actual_runid = p.actual_runid) ∨
      (∃ env o, ev = DeputyEvent.order env o ∧
         ∃ c ∈ o.cmds, c.sheriff_id = p'.sheriff_id ∧
           p'.actual_runid = c.desired_runid) := by
  intro p' hp'
  cases ev with
  | order env o =>
      rcases order_received_runid env s o p' hp' with h | ⟨c, hc, a, b⟩
      · exact Or.inl h
      · exact Or.inr ⟨env, o, rfl, c, hc, a, b⟩
  | sigchld reaps =>
      obtain ⟨p, hp, a, b⟩ := check_for_dead_children_runid reaps s.cmds p' hp'
      exact Or.inl ⟨p, hp, a, b⟩
  | tick rs rp =>
      simp only [deputy_step, update_cpu_times] at hp'
      obtain ⟨q, hq, hmap⟩ := List.mem_map.mp hp'
      obtain ⟨a, b⟩ := update_cmd_cpu_frame _ rp q
      exact Or.inl ⟨q, hq, by rw [← hmap, a], by rw [← hmap, b]⟩
  | mark => exact Or.inl ⟨p', hp', rfl, rfl⟩

/-- Claim C1: for every command record processed by the reconciler, the
transition table is applied exactly: a STOPPED handle with `force_quit`
false and differing run ids is started and gets
`actual_runid := desired_runid`; a STOPPED handle with `force_quit` true
is not started yet gets `actual_runid := desired_runid`; a STOPPED handle
with equal run ids and `force_quit` false is left alone; a RUNNING handle
with `force_quit` true or differing run ids has `stop` invoked; a RUNNING
handle with `force_quit` false and equal run ids receives no signal and
no spawn. -/
theorem claim_C1_transition_table (env : Env) (p : ProcmanCmd) (c : SheriffCmd) :
    (p.pid = 0 → c.force_quit = false → p.actual_runid ≠ c.desired_runid →
      (process_cmd env p c).1.actual_runid = c.desired_runid ∧
      (env.spawn_pid p.sheriff_id ≠ 0 →
        (process_cmd env p c).1.pid = env.spawn_pid p.sheriff_id ∧
        (process_cmd env p c).2.1 =
          [Effect.spawn p.sheriff_id (env.spawn_pid p.sheriff_id)]) ∧
      (env.spawn_pid p.sheriff_id = 0 → (process_cmd env p c).1.pid = 0)) ∧
    (p.pid = 0 → c.force_quit = true →
      (process_cmd env p c).1.actual_runid = c.desired_runid ∧
      (process_cmd env p c).1.pid = 0 ∧
      (process_cmd env p c).2.1 = []) ∧
    (p.pid = 0 → c.force_quit = false → p.actual_runid = c.desired_runid →
      (process_cmd env p c).1 = rename_upd p c ∧
      (process_cmd env p c).2.1 = []) ∧
    (p.pid ≠ 0 → (c.force_quit = true ∨ c.desired_runid ≠ p.actual_runid) →
      (process_cmd env p c).2.1 = (stop_cmd env.now p).2.1 ∧
      (process_cmd env p c).1.pid = p.pid ∧
      (process_cmd env p c).1.actual_runid = p.actual_runid ∧
      (process_cmd env p c).1.num_kills_sent = (stop_cmd env.now p).1.num_kills_sent ∧
      (process_cmd env p c).1.last_kill_time = (stop_cmd env.now p).1.last_kill_time) ∧
    (p.pid ≠ 0 → c.force_quit = false → c.desired_runid = p.actual_runid →
      (process_cmd env p c).1 = rename_upd p c ∧
      (process_cmd env p c).2.1 = []) := by
  obtain ⟨hc1, hc2⟩ := process_cmd_char env p c
  refine ⟨?_, ?_, ?_, ?_, ?_⟩
  · intro h0 hfq hne
    rw [hc1, hc2,
        apply_transition_start env _ c (by simp [rename_upd, h0])
          (by simpa [rename_upd] using hne) hfq]
    constructor
    · simp
    constructor
    · intro hs
      rw [start_cmd_success env _ c.desired_runid (by simpa [rename_upd] using hs)]
      simp [rename_upd]
    · intro hs
      rw [start_cmd_failure env _ c.desired_runid (by simpa [rename_upd] using hs)]
      simp [rename_upd, h0]
  · intro h0 hfq
    rw [hc1, hc2, apply_transition_noop env _ c (by simp [rename_upd, hfq])
        (by simp [rename_upd, h0])]
    simp [rename_upd, h0]
  · intro h0 hfq heq
    rw [hc1, hc2, apply_transition_noop env _ c (by simp [rename_upd, heq])
        (by simp [rename_upd, h0])]
    cases p
    simp_all [rename_upd]
  · intro h0 h
    rw [hc1, hc2, apply_transition_stop env _ c (by simpa [rename_upd] using h0)
        (by simpa [rename_upd] using h)]
    obtain ⟨he, hn, hl⟩ := stop_cmd_congr env.now p (rename_upd p c) rfl rfl rfl
    obtain ⟨fp, fr, _, _⟩ := stop_cmd_frame env.now (rename_upd p c)
    exact ⟨he, by rw [fp, rename_upd_pid], by rw [fr, rename_upd_runid], hn, hl⟩
  · intro h0 hfq heq
    rw [hc1, hc2, apply_transition_noop env _ c (by simp [rename_upd, h0])
        (by simp [rename_upd, hfq, heq])]
    cases p
    simp_all [rename_upd]

/-- Witness for claim C1: the four guarded cases at concrete handles and
order records. -/
theorem claim_C1_witness :
    ((process_cmd w1_env w1_stopped w1_start_order).1.actual_runid = 7 ∧
     (process_cmd w1_env w1_stopped w1_start_order).1.pid = 42 ∧
     (process_cmd w1_env w1_stopped w1_start_order).2.1 =
       [Effect.spawn 1 42]) ∧
    ((process_cmd w1_env w1_stopped w1_fq_order).1.actual_runid = 7 ∧
     (process_cmd w1_env w1_stopped w1_fq_order).1.pid = 0 ∧
     (process_cmd w1_env w1_stopped w1_fq_order).2.1 = []) ∧
    ((process_cmd w1_env w1_running w1_stop_order).2.1 =
       (stop_cmd w1_env.now w1_running).2.1) ∧
    ((process_cmd w1_env w1_running w1_same_order).2.1 = []) := by
  have h1 := (claim_C1_transition_table w1_env w1_stopped w1_start_order).1
      rfl rfl (by decide)
  have h2 := (claim_C1_transition_table w1_env w1_stopped w1_fq_order).2.1
      rfl rfl
  have h4 := (claim_C1_transition_table w1_env w1_running w1_stop_order).2.2.2.1
      (by decide) (Or.inl rfl)
  have h5 := (claim_C1_transition_table w1_env w1_running w1_same_order).2.2.2.2
      (by decide) rfl rfl
  exact ⟨⟨h1.1, (h1.2.1 (by decide)).1, (h1.2.1 (by decide)).2⟩,
         ⟨h2.1, h2.2.1, h2.2.2⟩, h4.1, h5.2⟩

/-- Claim C2: a `stop_cmd` call on a running handle within 900 000 µs of
`last_kill_time` does nothing; otherwise it sends SIGTERM while
`num_kills_sent ≤ 5` and SIGKILL after, increments the counter and
records the kill time; the 7th signalling call after a spawn (spaced
beyond the rate limit) is a SIGKILL; a stopped handle is a no-op. -/
theorem claim_C2_stop_escalation (now : Int) (p : ProcmanCmd) :
    (p.pid ≠ 0 → p.last_kill_time ≠ 0 → now < p.last_kill_time + 900000 →
       stop_cmd now p = (p, [], 0)) ∧
    (p.pid ≠ 0 → (p.last_kill_time = 0 ∨ p.last_kill_time + 900000 ≤ now) →
       (stop_cmd now p).2.1 =
         [Effect.signal p.pid (if p.num_kills_sent ≤ 5 then SIGTERM else SIGKILL)] ∧
       (stop_cmd now p).1.num_kills_sent = p.num_kills_sent + 1 ∧
       (stop_cmd now p).1.last_kill_time = now) ∧
    (p.pid = 0 → stop_cmd now p = (p, [], 0)) ∧
    (p.pid ≠ 0 → p.num_kills_sent = 0 → p.last_kill_time = 0 →
       (stop_calls p [1000000, 2000000, 3000000, 4000000,
                      5000000, 6000000, 7000000]).2 =
         [Effect.signal p.pid SIGTERM, Effect.signal p.pid SIGTERM,
          Effect.signal p.pid SIGTERM, Effect.signal p.pid SIGTERM,
          Effect.signal p.pid SIGTERM, Effect.signal p.pid SIGTERM,
          Effect.signal p.pid SIGKILL]) := by
  refine ⟨?_, ?_, ?_, ?_⟩
  · intro h0 hl hnow
    simp [stop_cmd, h0, hl, hnow]
  · intro h0 h
    have hguard : ¬ (p.last_kill_time ≠ 0 ∧ now < p.last_kill_time + 900000) := by
      rcases h with h | h
      · simp [h]
      · intro hc
        omega
    have hsig : (if p.num_kills_sent > 5 then SIGKILL else SIGTERM) =
        (if p.num_kills_sent ≤ 5 then SIGTERM else SIGKILL) := by
      split_ifs <;> omega
    simp [stop_cmd, h0, hguard, hsig]
  · intro h0
    simp [stop_cmd, h0]
  · intro h0 hn hl
    simp [stop_calls, stop_cmd, h0, hn, hl, SIGTERM, SIGKILL]

/-- Witness for claim C2 at concrete handles and timestamps. -/
theorem claim_C2_witness :
    (stop_cmd 500000 w2_p = (w2_p, [], 0)) ∧
    ((stop_cmd 1100000 w2_p).2.1 = [Effect.signal 9 SIGTERM] ∧
     (stop_cmd 1100000 w2_p).1.num_kills_sent = 3 ∧
     (stop_cmd 1100000 w2_p).1.last_kill_time = 1100000) ∧
    (stop_cmd 500000 w2_r = (w2_r, [], 0)) ∧
    ((stop_calls w2_q [1000000, 2000000, 3000000, 4000000,
                       5000000, 6000000, 7000000]).2 =
       [Effect.signal 8 SIGTERM, Effect.signal 8 SIGTERM,
        Effect.signal 8 SIGTERM, Effect.signal 8 SIGTERM,
        Effect.signal 8 SIGTERM, Effect.signal 8 SIGTERM,
        Effect.signal 8 SIGKILL]) := by
  have ha := (claim_C2_stop_escalation 500000 w2_p).1 (by decide) (by decide)
      (by decide)
  have hb := (claim_C2_stop_escalation 1100000 w2_p).2.1 (by decide)
      (Or.inr (by decide))
  have hc := (claim_C2_stop_escalation 500000 w2_r).2.2.1 rfl
  have hd := (claim_C2_stop_escalation 0 w2_q).2.2.2 (by decide) rfl rfl
  exact ⟨ha, ⟨hb.1, hb.2.1, hb.2.2⟩, hc, hd⟩

/-- Counterexample to claim C3 as stated: a stopped handle at
`actual_runid = 5` receiving a fresh, correctly addressed force-quit
order with `desired_runid = 3` ends at `actual_runid = 3` — a decrease —
while the reconcile emits no spawn (no effect at all). -/
theorem claim_C3_counterexample :
    c3_deputy.cmds.map (·.actual_runid) = [5] ∧
    (procman_deputy_order_received c3_env c3_deputy c3_orders).1.cmds.map
        (·.actual_runid) = [3] ∧
    (procman_deputy_order_received c3_env c3_deputy c3_orders).2 = [] := by
  refine ⟨by decide, by decide, by decide⟩

/-- Claim C3 (amended): across every event the deputy dispatches, a
handle's `actual_runid` is either left unchanged or set to the
`desired_runid` of the order command bearing its sheriff id (whether or
not a spawn accompanies the assignment); consequently, when sheriff ids
are unique and every order command aimed at an existing handle carries
`desired_runid` at least the handle's current `actual_runid`, no
transition decreases `actual_runid`. -/
theorem claim_C3_amended_runid_changes (s : Deputy) (ev : DeputyEvent) :
    (∀ p' ∈ (deputy_step s ev).cmds,
      (∃ p ∈ s.cmds, p.sheriff_id = p'.sheriff_id ∧
         p'.actual_runid = p.actual_runid) ∨
      (∃ env o, ev = DeputyEvent.order env o ∧
         ∃ c ∈ o.cmds, c.sheriff_id = p'.sheriff_id ∧
           p'.actual_runid = c.desired_runid)) ∧
    ((s.cmds.map (·.sheriff_id)).Nodup → orders_monotone s ev →
      ∀ p ∈ s.cmds, ∀ p' ∈ (deputy_step s ev).cmds,
        p'.sheriff_id = p.sheriff_id → p.actual_runid ≤ p'.actual_runid) := by
  refine ⟨deputy_step_runid s ev, ?_⟩
  intro hnd hmono p hp p' hp' hsid
  rcases deputy_step_runid s ev p' hp' with ⟨q, hq, a, b⟩ | ⟨env, o, hev, c, hc, a, b⟩
  · have hqp : q = p := List.inj_on_of_nodup_map hnd hq hp (by rw [a, hsid])
    rw [b, hqp]
  · rw [b]
    subst hev
    exact hmono c hc p hp (by rw [← hsid, a])

/-- Witness for the amended claim C3: a restart order bumps a concrete
handle from generation 1 to 2. -/
theorem claim_C3_amended_witness :
    w3_cmd.actual_runid ≤ w3_after.actual_runid := by
  have h := (claim_C3_amended_runid_changes w3_deputy
      (DeputyEvent.order w3_env w3_orders)).2
  refine h (by decide) ?_ w3_cmd (by decide) w3_after (by decide) (by decide)
  show ∀ c ∈ w3_orders.cmds, ∀ p ∈ w3_deputy.cmds,
      p.sheriff_id = c.sheriff_id → p.actual_runid ≤ c.desired_runid
  decide

/-- Claim C4: after a non-stale order addressed to this deputy is
reconciled, every surviving handle whose sheriff id is absent from the
order is marked `remove_requested` and still running; every
already-stopped handle absent from the order is deleted within the same
reconcile; and every running absent handle has `stop` invoked on it, its
signal appearing among the published effects. -/
theorem claim_C4_orphan_cull (env : Env) (s : Deputy) (orders : Orders)
    (hhost : orders.host = s.hostname)
    (hfresh : ¬ (env.now - orders.utime > PROCMAN_MAX_MESSAGE_AGE_USEC))
    (huniq : (s.cmds.map (·.sheriff_id)).Nodup) :
    (∀ p' ∈ (procman_deputy_order_received env s orders).1.cmds,
       procmd_orders_find_cmd orders p'.sheriff_id = none →
       p'.remove_requested = true ∧ p'.pid ≠ 0) ∧
    (∀ p ∈ s.cmds, p.pid = 0 →
       procmd_orders_find_cmd orders p.sheriff_id = none →
       ∀ p' ∈ (procman_deputy_order_received env s orders).1.cmds,
         p'.sheriff_id ≠ p.sheriff_id) ∧
    (∀ p ∈ s.cmds, p.pid ≠ 0 →
       procmd_orders_find_cmd orders p.sheriff_id = none →
       ∀ e ∈ (stop_cmd env.now { p with remove_requested := true }).2.1,
         e ∈ (procman_deputy_order_received env s orders).2) := by
  obtain ⟨hcm, hef⟩ := order_received_live env s orders hhost hfresh
  have hnamed : ∀ p : ProcmanCmd,
      procmd_orders_find_cmd orders p.sheriff_id = none →
      ∀ c ∈ orders.cmds, c.sheriff_id ≠ p.sheriff_id := by
    intro p hnone c hc
    have := List.find?_eq_none.mp hnone c hc
    simpa using this
  refine ⟨?_, ?_, ?_⟩
  · intro p' hp' hnone
    rw [hcm] at hp'
    exact cull_orphans_not_named env orders _ p' hp' hnone
  · intro p hp hpid hnone p' hp'
    rw [hcm] at hp'
    have hmem : p ∈ (reconcile_all env s.cmds orders.cmds).1 :=
      mem_reconcile_all_of_not_named env orders.cmds s.cmds p hp (hnamed p hnone)
    exact cull_orphans_deletes env orders _
      (reconcile_all_sids_nodup env orders.cmds s.cmds huniq) p hmem hpid hnone p' hp'
  · intro p hp hpid hnone e he
    have hmem : p ∈ (reconcile_all env s.cmds orders.cmds).1 :=
      mem_reconcile_all_of_not_named env orders.cmds s.cmds p hp (hnamed p hnone)
    exact hef e (Or.inr (cull_orphans_stops env orders _ p hmem hpid hnone e he))

/-- Witness for claim C4: an empty order culls a two-entry table. -/
theorem claim_C4_witness :
    (w4_survivor.remove_requested = true ∧ w4_survivor.pid ≠ 0) ∧
    w4_survivor.sheriff_id ≠ 2 ∧
    Effect.signal 42 SIGTERM ∈
      (procman_deputy_order_received w4_env w4_deputy w4_orders).2 := by
  have h := claim_C4_orphan_cull w4_env w4_deputy w4_orders rfl (by decide)
      (by decide)
  exact ⟨h.1 w4_survivor (by decide) (by decide),
         h.2.1 w4_p2 (by decide) rfl (by decide) w4_survivor (by decide),
         h.2.2 w4_p1 (by decide) (by decide) (by decide)
           (Effect.signal 42 SIGTERM) (by decide)⟩

/-- Claim C5: an order for this deputy whose `utime` is older than
`PROCMAN_MAX_MESSAGE_AGE_USEC` increments `nstale_orders_slm` by exactly
one, publishes exactly one clock-check log line per command in the batch,
and is dropped: the child table is untouched and no spawn and no signal
is emitted. -/
theorem claim_C5_stale_orders (env : Env) (s : Deputy) (orders : Orders)
    (hhost : orders.host = s.hostname)
    (hstale : env.now - orders.utime > PROCMAN_MAX_MESSAGE_AGE_USEC) :
    (procman_deputy_order_received env s orders).1.nstale_orders_slm =
      s.nstale_orders_slm + 1 ∧
    (procman_deputy_order_received env s orders).1.cmds = s.cmds ∧
    (procman_deputy_order_received env s orders).1.observed_sheriffs_slm =
      s.observed_sheriffs_slm ∧
    (procman_deputy_order_received env s orders).2 =
      orders.cmds.map (fun c =>
        Effect.log c.sheriff_id (stale_text env.now orders.utime)) ∧
    (∀ e ∈ (procman_deputy_order_received env s orders).2,
      (∀ sid pid, e ≠ Effect.spawn sid pid) ∧
      (∀ pid sig, e ≠ Effect.signal pid sig)) := by
  have hcond : ¬ (orders.host ≠ s.hostname) := by simp [hhost]
  refine ⟨?_, ?_, ?_, ?_, ?_⟩ <;>
    simp only [procman_deputy_order_received] <;>
    simp [hcond, hstale]

/-- Witness for claim C5: an order stamped 61 s in the past. -/
theorem claim_C5_witness :
    (procman_deputy_order_received w5_env w5_deputy w5_orders).1.nstale_orders_slm
      = 1 ∧
    (procman_deputy_order_received w5_env w5_deputy w5_orders).1.cmds = [] ∧
    (procman_deputy_order_received w5_env w5_deputy w5_orders).2 =
      [Effect.log 4 (stale_text 100000000 39000000)] := by
  have h := claim_C5_stale_orders w5_env w5_deputy w5_orders rfl (by decide)
  exact ⟨h.1, h.2.1, h.2.2.2.1⟩

/-- Claim C6: every received order increments `norders_slm`;
`norders_forme_slm` is incremented exactly when the order's host matches
the deputy's hostname; a host-mismatched order changes nothing else and
publishes nothing; `nstale_orders_slm` moves only for orders counted for
this deputy; and along any event sequence from a fresh deputy,
`norders_forme_slm ≤ norders_slm` and
`nstale_orders_slm ≤ norders_forme_slm` hold. -/
theorem claim_C6_order_counters (env : Env) (s : Deputy) (o : Orders) :
    (procman_deputy_order_received env s o).1.norders_slm = s.norders_slm + 1 ∧
    ((procman_deputy_order_received env s o).1.norders_forme_slm =
       s.norders_forme_slm + 1 ↔ o.host = s.hostname) ∧
    (o.host ≠ s.hostname →
       procman_deputy_order_received env s o =
         ({ s with norders_slm := s.norders_slm + 1 }, [])) ∧
    ((procman_deputy_order_received env s o).1.nstale_orders_slm ≠
       s.nstale_orders_slm → o.host = s.hostname) ∧
    (∀ (hostname : String) (evs : List DeputyEvent),
       counters_inv (deputy_run (initial_deputy hostname) evs)) := by
  obtain ⟨c1, c2, c3⟩ := order_received_counters env s o
  refine ⟨c1, ?_, ?_, ?_, ?_⟩
  · rw [c2]
    split_ifs with h <;> simp [h]
  · intro h
    simp [procman_deputy_order_received, h]
  · intro h
    rcases c3 with c3 | ⟨_, hh⟩
    · exact absurd c3 h
    · exact hh
  · intro hostname evs
    have step : ∀ (t : Deputy) (l : List DeputyEvent), counters_inv t →
        counters_inv (deputy_run t l) := by
      intro t l
      induction l generalizing t with
      | nil => exact fun h => h
      | cons e rest ih =>
          intro h
          exact ih _ (deputy_step_counters_inv t e h)
    exact step _ _ ⟨Nat.le_refl 0, Nat.le_refl 0⟩

/-- Witness for claim C6: a misaddressed order and a short run ending in
a MARK reset. -/
theorem claim_C6_witness :
    procman_deputy_order_received w6_env (initial_deputy "h") w6_orders =
      ({ initial_deputy "h" with norders_slm := 1 }, []) ∧
    counters_inv (deputy_run (initial_deputy "h")
      [DeputyEvent.order w6_env w6_orders, DeputyEvent.mark]) := by
  have h := claim_C6_order_counters w6_env (initial_deputy "h") w6_orders
  exact ⟨h.2.2.1 (by decide),
         h.2.2.2.2 "h" [DeputyEvent.order w6_env w6_orders, DeputyEvent.mark]⟩

/-- Claim C7: when `procman_start_cmd` fails, `start_cmd` publishes the
"couldn't start" log line tagged with the child's sheriff id, leaves the
handle untouched (`pid` stays 0 and no stdout watch is registered), and
the reconciler keeps a handle with the record's sheriff id in the
table. -/
theorem claim_C7_spawn_failed (env : Env) (p : ProcmanCmd) (d : Int)
    (hfail : env.spawn_pid p.sheriff_id = 0) :
    start_cmd env p d =
      (p, [Effect.log 0 ("couldn't start [" ++ p.str ++ "]\n"),
           Effect.log p.sheriff_id ("ERROR!  couldn't start [" ++ p.str ++ "]\n")],
       -1) ∧
    (start_cmd env p d).1.pid = p.pid ∧
    (start_cmd env p d).1.stdout_watch = p.stdout_watch ∧
    Effect.log p.sheriff_id ("ERROR!  couldn't start [" ++ p.str ++ "]\n") ∈
      (start_cmd env p d).2.1 ∧
    (∀ (table : List ProcmanCmd) (c : SheriffCmd),
      ∃ q ∈ (reconcile_one env table c).1, q.sheriff_id = c.sheriff_id) := by
  have he := start_cmd_failure env p d hfail
  refine ⟨he, by rw [he], by rw [he], by rw [he]; simp, ?_⟩
  intro table c
  simp only [reconcile_one]
  cases hf : find_local_cmd table c.sheriff_id with
  | some q =>
      obtain ⟨hmem, hsid⟩ := find_local_cmd_some table c.sheriff_id q hf
      refine ⟨(process_cmd env q c).1, ?_, by rw [process_cmd_sid, hsid]⟩
      exact update_first_mem_self c.sheriff_id _ table ⟨q, hmem, hsid⟩
  | none =>
      refine ⟨(process_cmd env (new_cmd c) c).1, by simp, ?_⟩
      rw [process_cmd_sid]
      rfl

/-- Witness for claim C7 with an always-failing fork. -/
theorem claim_C7_witness :
    start_cmd w7_env w7_p 4 =
      (w7_p, [Effect.log 0 ("couldn't start [" ++ w7_p.str ++ "]\n"),
              Effect.log w7_p.sheriff_id
                ("ERROR!  couldn't start [" ++ w7_p.str ++ "]\n")], -1) ∧
    (start_cmd w7_env w7_p 4).1.pid = 0 ∧
    (start_cmd w7_env w7_p 4).1.stdout_watch = false := by
  have h := claim_C7_spawn_failed w7_env w7_p 4 rfl
  exact ⟨h.1, h.2.1, h.2.2.1⟩

/-- Claim C8: an order record that changes a running command's name while
keeping `desired_runid` equal to `actual_runid` and `force_quit` false
updates the stored name, counts as an action, and leaves `pid` and
`actual_runid` unchanged with no signal and no spawn — the new name takes
effect only at the next spawn. -/
theorem claim_C8_rename_no_restart (env : Env) (p : ProcmanCmd) (c : SheriffCmd)
    (hrun : p.pid ≠ 0) (hfq : c.force_quit = false)
    (heq : c.desired_runid = p.actual_runid) (hname : p.str ≠ c.name) :
    (process_cmd env p c).1.str = c.name ∧
    (process_cmd env p c).1.pid = p.pid ∧
    (process_cmd env p c).1.actual_runid = p.actual_runid ∧
    (process_cmd env p c).2.1 = [] ∧
    (process_cmd env p c).2.2 = true := by
  obtain ⟨hc1, hc2⟩ := process_cmd_char env p c
  have hnoop := apply_transition_noop env (rename_upd p c) c
      (by simp [rename_upd, hrun]) (by simp [rename_upd, hfq, heq])
  refine ⟨?_, ?_, ?_, ?_, ?_⟩
  · rw [hc1, hnoop]; rfl
  · rw [hc1, hnoop]; rfl
  · rw [hc1, hnoop]; simp [heq]
  · rw [hc2, hnoop]
  · simp only [process_cmd, if_pos hname]
    simp

/-- Witness for claim C8: renaming a running pid-7 handle. -/
theorem claim_C8_witness :
    (process_cmd w8_env w8_p w8_c).1.str = "new cmd" ∧
    (process_cmd w8_env w8_p w8_c).1.pid = 7 ∧
    (process_cmd w8_env w8_p w8_c).1.actual_runid = 4 ∧
    (process_cmd w8_env w8_p w8_c).2.1 = [] ∧
    (process_cmd w8_env w8_p w8_c).2.2 = true := by
  have h := claim_C8_rename_no_restart w8_env w8_p w8_c (by decide) rfl
      (by decide) (by decide)
  exact ⟨h.1, h.2.1, h.2.2.1, h.2.2.2.1, h.2.2.2.2⟩

/-- Claim C9: on a sampler tick, `cpu_load` is 0 when the elapsed system
jiffies between the two samples are 0 and `loaded/ellapsed` otherwise, so
it lies in [0, 1] whenever two valid samples exist; a running child's
`cpu_usage` is 0 whenever the elapsed jiffies are 0 or either previous
child counter is 0, and `used/ellapsed` otherwise. -/
theorem claim_C9_cpu_load (read_proc : Nat → Option ProcCpuMem)
    (a : SysCpuMem) (s : Deputy) :
    (ellapsed_jiffies a s.cpu_time0 = 0 →
       (update_cpu_times (some a) read_proc s).cpu_load = 0) ∧
    (ellapsed_jiffies a s.cpu_time0 ≠ 0 →
       (update_cpu_times (some a) read_proc s).cpu_load =
         (loaded_jiffies a s.cpu_time0 : ℚ) / (ellapsed_jiffies a s.cpu_time0 : ℚ)) ∧
    (sys_sample_valid a s.cpu_time0 →
       0 ≤ (update_cpu_times (some a) read_proc s).cpu_load ∧
       (update_cpu_times (some a) read_proc s).cpu_load ≤ 1) ∧
    ((update_cpu_times (some a) read_proc s).cmds =
       s.cmds.map (update_cmd_cpu (ellapsed_jiffies a s.cpu_time0) read_proc)) ∧
    (∀ p ∈ s.cmds, p.pid ≠ 0 → ∀ pa, read_proc p.pid = some pa →
       (update_cmd_cpu (ellapsed_jiffies a s.cpu_time0) read_proc p).cpu_usage =
         if ellapsed_jiffies a s.cpu_time0 = 0 ∨ p.cpu_time0.user = 0 ∨
            p.cpu_time0.system = 0 then 0
         else (used_jiffies pa p.cpu_time0 : ℚ) /
                (ellapsed_jiffies a s.cpu_time0 : ℚ)) := by
  refine ⟨?_, ?_, ?_, ?_, ?_⟩
  · intro h
    simp [update_cpu_times, h]
  · intro h
    simp [update_cpu_times, h]
  · intro hv
    by_cases h : ellapsed_jiffies a s.cpu_time0 = 0
    · simp [update_cpu_times, h]
    · have hle := loaded_le_ellapsed a s.cpu_time0 hv
      have hpos : (0 : ℚ) < (ellapsed_jiffies a s.cpu_time0 : ℚ) := by
        exact_mod_cast Nat.pos_of_ne_zero h
      constructor
      · simp only [update_cpu_times, if_neg h]
        positivity
      · simp only [update_cpu_times, if_neg h]
        rw [div_le_one hpos]
        exact_mod_cast hle
  · simp [update_cpu_times]
  · intro p _ hpid pa hread
    simp [update_cmd_cpu, hpid, hread]

/-- Witness for claim C9 on concrete samples (load 40/100). -/
theorem claim_C9_witness :
    ((update_cpu_times (some w9_a) w9_rp w9_deputy).cpu_load =
       (loaded_jiffies w9_a w9_deputy.cpu_time0 : ℚ) /
         (ellapsed_jiffies w9_a w9_deputy.cpu_time0 : ℚ)) ∧
    (0 ≤ (update_cpu_times (some w9_a) w9_rp w9_deputy).cpu_load ∧
     (update_cpu_times (some w9_a) w9_rp w9_deputy).cpu_load ≤ 1) ∧
    ((update_cmd_cpu (ellapsed_jiffies w9_a w9_deputy.cpu_time0) w9_rp
        w9_cmd).cpu_usage =
      if ellapsed_jiffies w9_a w9_deputy.cpu_time0 = 0 ∨
         w9_cmd.cpu_time0.user = 0 ∨ w9_cmd.cpu_time0.system = 0 then 0
      else (used_jiffies ⟨8, 7, 100, 200⟩ w9_cmd.cpu_time0 : ℚ) /
             (ellapsed_jiffies w9_a w9_deputy.cpu_time0 : ℚ)) := by
  have h := claim_C9_cpu_load w9_rp w9_a w9_deputy
  exact ⟨h.2.1 (by decide), h.2.2.1 (by unfold sys_sample_valid UINT64_MOD; decide),
         h.2.2.2.2 w9_cmd (by decide) (by decide) ⟨8, 7, 100, 200⟩ (by decide)⟩

/-- Claim C10: a successful start resets `num_kills_sent` and
`last_kill_time` to 0 besides setting `actual_runid`, so the escalation
restarts at each spawn and the first `stop_cmd` after a spawn is never
suppressed by the 900 ms rate limit. -/
theorem claim_C10_spawn_resets_kill_state (env : Env) (p : ProcmanCmd) (d : Int)
    (hok : env.spawn_pid p.sheriff_id ≠ 0) :
    (start_cmd env p d).1.num_kills_sent = 0 ∧
    (start_cmd env p d).1.last_kill_time = 0 ∧
    (start_cmd env p d).1.actual_runid = d ∧
    (∀ now : Int, (stop_cmd now (start_cmd env p d).1).2.1 =
       [Effect.signal (env.spawn_pid p.sheriff_id) SIGTERM]) := by
  have he := start_cmd_success env p d hok
  rw [he]
  refine ⟨rfl, rfl, rfl, ?_⟩
  intro now
  simp [stop_cmd, hok]

/-- Witness for claim C10: a spawn wiping stale kill bookkeeping. -/
theorem claim_C10_witness :
    (start_cmd w10_env w10_p 6).1.num_kills_sent = 0 ∧
    (start_cmd w10_env w10_p 6).1.last_kill_time = 0 ∧
    (start_cmd w10_env w10_p 6).1.actual_runid = 6 ∧
    (stop_cmd 123 (start_cmd w10_env w10_p 6).1).2.1 =
      [Effect.signal 77 SIGTERM] := by
  have h := claim_C10_spawn_resets_kill_state w10_env w10_p 6 (by decide)
  exact ⟨h.1, h.2.1, h.2.2.1, h.2.2.2 123⟩

end ProcmanDeputy
